import Mathlib

/-!
Verification of the single-item inventory simulator (`src/main.py`).

The simulation engine `run_simulation` is embedded shallowly: Python ints
become `ℤ`/`ℕ`, the on-hand inventory and order quantities (which become
floats after the first delivery of a float order quantity) become `ℚ`, the
global random source consumed by `random.randint` becomes an explicit stream
`g : ℕ → ℕ` of raw draws together with a position counter, and the
`ValueError` that `random.randint lo hi` raises when `lo > hi` becomes
`Option.none`.  The policy calculator (`calculate_eoq`,
`calculate_reorder_point`), which computes over floats via `np.sqrt` and
`scipy.stats.norm.ppf`, is embedded over `ℝ` with `Real.sqrt` and the
standard-normal quantile defined as the inverse of the Gaussian cdf.
-/

namespace InventorySim

/-- State of `run_simulation`'s loop: the local variables `inventory`,
`on_order`, `days_until_delivery`, `stockouts`, `inventory_levels`, plus the
position reached in the random stream. -/
structure SimState where
  inventory : ℚ
  on_order : ℚ
  days_until_delivery : ℤ
  stockouts : ℕ
  inventory_levels : List ℚ
  rngPos : ℕ
deriving DecidableEq

/-- The parameters of `run_simulation` other than the horizon and the initial
stock: `reorder_point`, `order_quantity`, `lead_time` (arguments), and the
globals `avg_daily_demand`, `demand_std` read by the demand draw. -/
structure SimParams where
  reorder_point : ℚ
  order_quantity : ℚ
  lead_time : ℤ
  avg_daily_demand : ℤ
  demand_std : ℤ
deriving DecidableEq

/-- Python `random.randint lo hi`: an integer in `[lo, hi]` (inclusive),
obtained here from the raw draw `r` of the random source; raises `ValueError`
(modelled as `none`) when `lo > hi`.  Every value of the range is realised as
`r` ranges over `ℕ`. -/
def randint (lo hi : ℤ) (r : ℕ) : Option ℤ :=
  if lo ≤ hi then some (lo + (r : ℤ) % (hi - lo + 1)) else none

/-- Lower bound of the demand draw: `max(1, avg_daily_demand - 2*demand_std)`. -/
def demandLo (p : SimParams) : ℤ := max 1 (p.avg_daily_demand - 2 * p.demand_std)

/-- Upper bound of the demand draw: `avg_daily_demand + 2*demand_std`. -/
def demandHi (p : SimParams) : ℤ := p.avg_daily_demand + 2 * p.demand_std

/-- The demand draw of one loop iteration: `random.randint(max(1, avg - 2*std),
avg + 2*std)`, consuming one value of the random stream. -/
def drawDemand (p : SimParams) (g : ℕ → ℕ) (s : SimState) : Option (ℤ × SimState) :=
  match randint (demandLo p) (demandHi p) (g s.rngPos) with
  | some d => some (d, { s with rngPos := s.rngPos + 1 })
  | none => none

/-- Delivery check: `if days_until_delivery == 1: inventory += on_order;
on_order = 0`. -/
def deliveryStep (s : SimState) : SimState :=
  if s.days_until_delivery = 1 then
    { s with inventory := s.inventory + s.on_order, on_order := 0 }
  else s

/-- Demand fulfillment: `if inventory >= demand: inventory -= demand  else:
stockouts += 1; inventory = 0`. -/
def fulfillStep (demand : ℤ) (s : SimState) : SimState :=
  if (demand : ℚ) ≤ s.inventory then { s with inventory := s.inventory - demand }
  else { s with stockouts := s.stockouts + 1, inventory := 0 }

/-- Reorder decision: `if inventory <= reorder_point and on_order == 0:
on_order = order_quantity; days_until_delivery = lead_time  elif
days_until_delivery > 0: days_until_delivery -= 1`. -/
def reorderStep (p : SimParams) (s : SimState) : SimState :=
  if s.inventory ≤ p.reorder_point ∧ s.on_order = 0 then
    { s with on_order := p.order_quantity, days_until_delivery := p.lead_time }
  else if 0 < s.days_until_delivery then
    { s with days_until_delivery := s.days_until_delivery - 1 }
  else s

/-- Record: `inventory_levels.append(inventory)`. -/
def recordStep (s : SimState) : SimState :=
  { s with inventory_levels := s.inventory_levels ++ [s.inventory] }

/-- One iteration of the `for day in range(days)` loop, in the source's order:
demand draw first, then delivery check, fulfillment, reorder decision,
record. -/
def simStep (p : SimParams) (g : ℕ → ℕ) (s : SimState) : Option SimState :=
  match drawDemand p g s with
  | some (d, s1) => some (recordStep (reorderStep p (fulfillStep d (deliveryStep s1))))
  | none => none

/-- `n` further iterations of the loop from state `s`; `none` as soon as one
demand draw raises. -/
def runFrom (p : SimParams) (g : ℕ → ℕ) : ℕ → SimState → Option SimState
  | 0, s => some s
  | n + 1, s =>
    match simStep p g s with
    | some s1 => runFrom p g n s1
    | none => none

/-- The loop state at entry: `inventory = initial_stock; on_order = 0;
days_until_delivery = 0; stockouts = 0; inventory_levels = []`. -/
def initState (initial_stock : ℤ) : SimState :=
  { inventory := (initial_stock : ℚ)
    on_order := 0
    days_until_delivery := 0
    stockouts := 0
    inventory_levels := []
    rngPos := 0 }

/-- `run_simulation(days, initial_stock, reorder_point, order_quantity,
lead_time)` with the globals `avg_daily_demand` and `demand_std` passed
explicitly and the random source abstracted as the stream `g`; returns the
pair `(inventory_levels, stockouts)`, or `none` if a demand draw raises. -/
def run_simulation (days : ℕ) (initial_stock : ℤ)
    (reorder_point order_quantity : ℚ) (lead_time : ℤ)
    (avg_daily_demand demand_std : ℤ) (g : ℕ → ℕ) : Option (List ℚ × ℕ) :=
  (runFrom
      { reorder_point := reorder_point
        order_quantity := order_quantity
        lead_time := lead_time
        avg_daily_demand := avg_daily_demand
        demand_std := demand_std } g days (initState initial_stock)).map
    fun s => (s.inventory_levels, s.stockouts)

/-! ### The specified step order (delivery check before demand draw) -/

/-- One per-day transition in the order the specification gives: delivery
check first, then demand draw, fulfillment, reorder decision, record. -/
def simStepSpec (p : SimParams) (g : ℕ → ℕ) (s : SimState) : Option SimState :=
  match drawDemand p g (deliveryStep s) with
  | some (d, s1) => some (recordStep (reorderStep p (fulfillStep d s1)))
  | none => none

/-- Iterating the specified transition. -/
def runFromSpec (p : SimParams) (g : ℕ → ℕ) : ℕ → SimState → Option SimState
  | 0, s => some s
  | n + 1, s =>
    match simStepSpec p g s with
    | some s1 => runFromSpec p g n s1
    | none => none

/-- The whole engine run using the specified transition order. -/
def run_simulation_spec (days : ℕ) (initial_stock : ℤ)
    (reorder_point order_quantity : ℚ) (lead_time : ℤ)
    (avg_daily_demand demand_std : ℤ) (g : ℕ → ℕ) : Option (List ℚ × ℕ) :=
  (runFromSpec
      { reorder_point := reorder_point
        order_quantity := order_quantity
        lead_time := lead_time
        avg_daily_demand := avg_daily_demand
        demand_std := demand_std } g days (initState initial_stock)).map
    fun s => (s.inventory_levels, s.stockouts)

/-! ### The policy calculator -/

/-- `calculate_eoq(demand, order_cost, holding_cost)`:
`np.sqrt((2 * demand * order_cost) / holding_cost)`. -/
noncomputable def calculate_eoq (demand order_cost holding_cost : ℝ) : ℝ :=
  Real.sqrt ((2 * demand * order_cost) / holding_cost)

/-- The standard normal cumulative distribution function, the `norm.cdf` that
`scipy.stats.norm.ppf` inverts: the integral of the standard Gaussian density
up to `x`. -/
noncomputable def stdNormCdf (x : ℝ) : ℝ :=
  ∫ t in Set.Iic x, ProbabilityTheory.gaussianPDFReal 0 1 t

/-- `scipy.stats.norm.ppf`: the quantile (inverse cdf) of the standard normal
distribution. -/
noncomputable def norm_ppf (p : ℝ) : ℝ := Function.invFun stdNormCdf p

/-- `calculate_reorder_point(avg_daily, lead_time, service_level,
demand_std)`: `z_score = norm.ppf(service_level); safety_stock = z_score *
demand_std * np.sqrt(lead_time); return avg_daily * lead_time +
safety_stock`. -/
noncomputable def calculate_reorder_point
    (avg_daily lead_time service_level demand_std : ℝ) : ℝ :=
  avg_daily * lead_time + norm_ppf service_level * demand_std * Real.sqrt lead_time

/-! ### Basic properties of the transition substeps -/

theorem randint_eq_some {lo hi : ℤ} {r : ℕ} {d : ℤ}
    (h : randint lo hi r = some d) : lo ≤ d ∧ d ≤ hi := by
  unfold randint at h
  split at h
  case isTrue hle =>
    have hpos : 0 < hi - lo + 1 := by omega
    have h0 : 0 ≤ (r : ℤ) % (hi - lo + 1) := Int.emod_nonneg _ (by omega)
    have h1 : (r : ℤ) % (hi - lo + 1) < hi - lo + 1 := Int.emod_lt_of_pos _ hpos
    simp only [Option.some.injEq] at h
    omega
  case isFalse hgt => cases h

theorem randint_isSome {lo hi : ℤ} (r : ℕ) (h : lo ≤ hi) :
    ∃ d, randint lo hi r = some d := by
  refine ⟨lo + (r : ℤ) % (hi - lo + 1), ?_⟩
  unfold randint
  simp [h]

theorem reorderStep_inventory (p : SimParams) (s : SimState) :
    (reorderStep p s).inventory = s.inventory := by
  unfold reorderStep
  split
  · rfl
  · split <;> rfl

theorem reorderStep_stockouts (p : SimParams) (s : SimState) :
    (reorderStep p s).stockouts = s.stockouts := by
  unfold reorderStep
  split
  · rfl
  · split <;> rfl

theorem reorderStep_levels (p : SimParams) (s : SimState) :
    (reorderStep p s).inventory_levels = s.inventory_levels := by
  unfold reorderStep
  split
  · rfl
  · split <;> rfl

theorem deliveryStep_dud (s : SimState) :
    (deliveryStep s).days_until_delivery = s.days_until_delivery := by
  unfold deliveryStep
  split <;> rfl

theorem deliveryStep_stockouts (s : SimState) :
    (deliveryStep s).stockouts = s.stockouts := by
  unfold deliveryStep
  split <;> rfl

theorem deliveryStep_levels (s : SimState) :
    (deliveryStep s).inventory_levels = s.inventory_levels := by
  unfold deliveryStep
  split <;> rfl

theorem fulfillStep_on_order (d : ℤ) (s : SimState) :
    (fulfillStep d s).on_order = s.on_order := by
  unfold fulfillStep
  split <;> rfl

theorem fulfillStep_dud (d : ℤ) (s : SimState) :
    (fulfillStep d s).days_until_delivery = s.days_until_delivery := by
  unfold fulfillStep
  split <;> rfl

theorem fulfillStep_levels (d : ℤ) (s : SimState) :
    (fulfillStep d s).inventory_levels = s.inventory_levels := by
  unfold fulfillStep
  split <;> rfl

theorem fulfillStep_inventory_nonneg (d : ℤ) (s : SimState) :
    0 ≤ (fulfillStep d s).inventory := by
  unfold fulfillStep
  split
  case isTrue h => simpa using h
  case isFalse h => simp

theorem fulfillStep_stockouts_le (d : ℤ) (s : SimState) :
    s.stockouts ≤ (fulfillStep d s).stockouts ∧
      (fulfillStep d s).stockouts ≤ s.stockouts + 1 := by
  unfold fulfillStep
  split <;> simp

/-- Eliminating a successful `simStep`: the demand draw succeeded, and the new
state is the record of the reorder of the fulfillment of the delivery of the
rng-advanced state. -/
theorem simStep_eq_some {p : SimParams} {g : ℕ → ℕ} {s s1 : SimState}
    (h : simStep p g s = some s1) :
    ∃ d, randint (demandLo p) (demandHi p) (g s.rngPos) = some d ∧
      s1 = recordStep (reorderStep p
        (fulfillStep d (deliveryStep { s with rngPos := s.rngPos + 1 }))) := by
  unfold simStep drawDemand at h
  cases hr : randint (demandLo p) (demandHi p) (g s.rngPos) with
  | none => rw [hr] at h; cases h
  | some d =>
    rw [hr] at h
    simp only [Option.some.injEq] at h
    exact ⟨d, rfl, h.symm⟩

theorem runFrom_zero (p : SimParams) (g : ℕ → ℕ) (s : SimState) :
    runFrom p g 0 s = some s := rfl

theorem runFrom_succ_eq_some {p : SimParams} {g : ℕ → ℕ} {n : ℕ} {s s1 : SimState}
    (h : runFrom p g (n + 1) s = some s1) :
    ∃ u, simStep p g s = some u ∧ runFrom p g n u = some s1 := by
  unfold runFrom at h
  cases hu : simStep p g s with
  | none => rw [hu] at h; cases h
  | some u =>
    rw [hu] at h
    exact ⟨u, rfl, h⟩

/-- While an order is outstanding, the reorder decision places no new order:
the guard `on_order == 0` fails, so `on_order` is left unchanged. -/
theorem reorderStep_of_on_order_ne (p : SimParams) {s : SimState}
    (hq : s.on_order ≠ 0) :
    (reorderStep p s).on_order = s.on_order ∧
      (reorderStep p s).days_until_delivery =
        (if 0 < s.days_until_delivery then s.days_until_delivery - 1
         else s.days_until_delivery) := by
  unfold reorderStep
  have hc : ¬(s.inventory ≤ p.reorder_point ∧ s.on_order = 0) := by
    rintro ⟨-, h0⟩
    exact hq h0
  rw [if_neg hc]
  split <;> simp_all

/-- One loop iteration taken while an order is outstanding and the countdown
is above 1: the order stays outstanding and the countdown drops by one. -/
theorem simStep_while_outstanding {p : SimParams} {g : ℕ → ℕ} {s s1 : SimState}
    (h : simStep p g s = some s1) (hq : s.on_order ≠ 0)
    (hd1 : s.days_until_delivery ≠ 1) (hpos : 0 < s.days_until_delivery) :
    s1.on_order = s.on_order ∧
      s1.days_until_delivery = s.days_until_delivery - 1 := by
  obtain ⟨d, hr, rfl⟩ := simStep_eq_some h
  have hdel : deliveryStep { s with rngPos := s.rngPos + 1 } =
      { s with rngPos := s.rngPos + 1 } := by
    unfold deliveryStep
    exact if_neg hd1
  rw [hdel]
  have hfo : (fulfillStep d { s with rngPos := s.rngPos + 1 }).on_order = s.on_order :=
    fulfillStep_on_order _ _
  have hfd : (fulfillStep d { s with rngPos := s.rngPos + 1 }).days_until_delivery =
      s.days_until_delivery := fulfillStep_dud _ _
  have hro := reorderStep_of_on_order_ne p
    (s := fulfillStep d { s with rngPos := s.rngPos + 1 }) (by rw [hfo]; exact hq)
  rw [hfo, hfd] at hro
  rw [if_pos hpos] at hro
  exact ⟨by simpa [recordStep] using hro.1, by simpa [recordStep] using hro.2⟩

/-- Case analysis of the reorder decision on the countdown: either a new order
is placed (countdown reset to the lead time), or the countdown is decremented
(when positive), or nothing changes. -/
theorem reorderStep_dud_cases (p : SimParams) (s : SimState) :
    (reorderStep p s).days_until_delivery = p.lead_time ∨
      ((reorderStep p s).on_order = s.on_order ∧
        (reorderStep p s).days_until_delivery = s.days_until_delivery - 1 ∧
        0 < s.days_until_delivery) ∨
      ((reorderStep p s).on_order = s.on_order ∧
        (reorderStep p s).days_until_delivery = s.days_until_delivery ∧
        ¬0 < s.days_until_delivery) := by
  unfold reorderStep
  split
  · exact Or.inl rfl
  · split
    case isTrue hp => exact Or.inr (Or.inl ⟨rfl, rfl, hp⟩)
    case isFalse hp => exact Or.inr (Or.inr ⟨rfl, rfl, hp⟩)

/-- One loop iteration preserves the single-outstanding-order invariant
`on_order ≠ 0 → days_until_delivery > 0`, assuming `lead_time ≥ 1`. -/
theorem simStep_preserves_orderInv {p : SimParams} {g : ℕ → ℕ} {s s1 : SimState}
    (hlt : 1 ≤ p.lead_time) (h : simStep p g s = some s1)
    (hinv : s.on_order ≠ 0 → 0 < s.days_until_delivery) :
    s1.on_order ≠ 0 → 0 < s1.days_until_delivery := by
  obtain ⟨d, hr, rfl⟩ := simStep_eq_some h
  set t := deliveryStep { s with rngPos := s.rngPos + 1 } with ht
  set u := fulfillStep d t with hu
  have hstrong : t.on_order ≠ 0 → 2 ≤ t.days_until_delivery := by
    rw [ht]
    unfold deliveryStep
    split
    case isTrue hc => simp
    case isFalse hc =>
      intro ho
      have h0 : s.on_order ≠ 0 := ho
      have h1 : 0 < s.days_until_delivery := hinv h0
      have h2 : s.days_until_delivery ≠ 1 := hc
      show 2 ≤ s.days_until_delivery
      omega
  have huo : u.on_order = t.on_order := fulfillStep_on_order _ _
  have hud : u.days_until_delivery = t.days_until_delivery := fulfillStep_dud _ _
  show (reorderStep p u).on_order ≠ 0 → 0 < (reorderStep p u).days_until_delivery
  rcases reorderStep_dud_cases p u with hcase | ⟨h1, h2, h3⟩ | ⟨h1, h2, h3⟩
  · intro _
    rw [hcase]
    omega
  · intro ho
    rw [h1] at ho
    have h4 := hstrong (by rw [← huo]; exact ho)
    rw [hud] at h2 h3
    omega
  · intro ho
    rw [h1] at ho
    have h4 := hstrong (by rw [← huo]; exact ho)
    rw [hud] at h2 h3
    omega

/-- The invariant `on_order ≠ 0 → days_until_delivery > 0` is preserved by any
number of loop iterations. -/
theorem runFrom_preserves_orderInv {p : SimParams} {g : ℕ → ℕ}
    (hlt : 1 ≤ p.lead_time) :
    ∀ (n : ℕ) (s s1 : SimState),
      (s.on_order ≠ 0 → 0 < s.days_until_delivery) →
      runFrom p g n s = some s1 →
      (s1.on_order ≠ 0 → 0 < s1.days_until_delivery) := by
  intro n
  induction n with
  | zero =>
    intro s s1 hinv h
    rw [runFrom_zero] at h
    cases h
    exact hinv
  | succ n ih =>
    intro s s1 hinv h
    obtain ⟨u, hu, hrest⟩ := runFrom_succ_eq_some h
    exact ih u s1 (simStep_preserves_orderInv hlt hu hinv) hrest

/-- One loop iteration appends exactly the current (post-fulfillment, hence
non-negative) inventory to the trajectory and raises the stockout count by at
most one. -/
theorem simStep_levels_stockouts {p : SimParams} {g : ℕ → ℕ} {s s1 : SimState}
    (h : simStep p g s = some s1) :
    s1.inventory_levels = s.inventory_levels ++ [s1.inventory] ∧
      s.stockouts ≤ s1.stockouts ∧ s1.stockouts ≤ s.stockouts + 1 ∧
      0 ≤ s1.inventory := by
  obtain ⟨d, hr, rfl⟩ := simStep_eq_some h
  set t := deliveryStep { s with rngPos := s.rngPos + 1 } with ht
  set u := fulfillStep d t with hu
  have hlev : (reorderStep p u).inventory_levels = s.inventory_levels := by
    rw [reorderStep_levels, hu, fulfillStep_levels, ht, deliveryStep_levels]
  have hinv : 0 ≤ (reorderStep p u).inventory := by
    rw [reorderStep_inventory, hu]
    exact fulfillStep_inventory_nonneg d t
  have hso : s.stockouts ≤ (reorderStep p u).stockouts ∧
      (reorderStep p u).stockouts ≤ s.stockouts + 1 := by
    rw [reorderStep_stockouts, hu]
    have := fulfillStep_stockouts_le d t
    rw [ht, deliveryStep_stockouts] at this
    exact this
  refine ⟨?_, hso.1, hso.2, hinv⟩
  simp only [recordStep, hlev]

/-- Any number of loop iterations extends the trajectory by exactly that many
entries and the stockout count by at most that many. -/
theorem runFrom_length_stockouts {p : SimParams} {g : ℕ → ℕ} :
    ∀ (n : ℕ) (s s1 : SimState), runFrom p g n s = some s1 →
      s1.inventory_levels.length = s.inventory_levels.length + n ∧
        s1.stockouts ≤ s.stockouts + n := by
  intro n
  induction n with
  | zero =>
    intro s s1 h
    rw [runFrom_zero] at h
    cases h
    simp
  | succ n ih =>
    intro s s1 h
    obtain ⟨u, hu, hrest⟩ := runFrom_succ_eq_some h
    obtain ⟨hl, hs1, hs2, -⟩ := simStep_levels_stockouts hu
    obtain ⟨ihl, ihs⟩ := ih u s1 hrest
    constructor
    · rw [ihl, hl]
      simp
      omega
    · omega

/-- Non-negativity of all recorded inventory levels is preserved by any number
of loop iterations. -/
theorem runFrom_levels_nonneg {p : SimParams} {g : ℕ → ℕ} :
    ∀ (n : ℕ) (s s1 : SimState), runFrom p g n s = some s1 →
      (∀ x ∈ s.inventory_levels, (0 : ℚ) ≤ x) →
      ∀ x ∈ s1.inventory_levels, (0 : ℚ) ≤ x := by
  intro n
  induction n with
  | zero =>
    intro s s1 h hx
    rw [runFrom_zero] at h
    cases h
    exact hx
  | succ n ih =>
    intro s s1 h hx
    obtain ⟨u, hu, hrest⟩ := runFrom_succ_eq_some h
    obtain ⟨hl, -, -, hnn⟩ := simStep_levels_stockouts hu
    refine ih u s1 hrest ?_
    rw [hl]
    intro x hxm
    rcases List.mem_append.mp hxm with hxm | hxm
    · exact hx x hxm
    · rw [List.mem_singleton.mp hxm]
      exact hnn

/-- When the demand range is non-empty, one loop iteration always succeeds. -/
theorem simStep_isSome {p : SimParams} {g : ℕ → ℕ} (s : SimState)
    (hle : demandLo p ≤ demandHi p) : (simStep p g s).isSome := by
  obtain ⟨d, hd⟩ := randint_isSome (g s.rngPos) hle
  unfold simStep drawDemand
  rw [hd]
  rfl

/-- When the demand range is non-empty, any number of loop iterations
succeeds. -/
theorem runFrom_isSome {p : SimParams} {g : ℕ → ℕ}
    (hle : demandLo p ≤ demandHi p) :
    ∀ (n : ℕ) (s : SimState), (runFrom p g n s).isSome := by
  intro n
  induction n with
  | zero =>
    intro s
    rw [runFrom_zero]
    rfl
  | succ n ih =>
    intro s
    have h := simStep_isSome (p := p) (g := g) s hle
    unfold runFrom
    cases hu : simStep p g s with
    | none => rw [hu] at h; cases h
    | some u => exact ih u

/-- Case analysis of the demand-fulfillment branch. -/
theorem fulfillStep_cases (d : ℤ) (s : SimState) :
    ((d : ℚ) ≤ s.inventory ∧
        fulfillStep d s = { s with inventory := s.inventory - d }) ∨
      (¬(d : ℚ) ≤ s.inventory ∧
        fulfillStep d s =
          { s with stockouts := s.stockouts + 1, inventory := 0 }) := by
  unfold fulfillStep
  split
  case isTrue hc => exact Or.inl ⟨hc, rfl⟩
  case isFalse hc => exact Or.inr ⟨hc, rfl⟩

/-- The reorder decision leaves `on_order` either at the order quantity (new
order placed) or unchanged. -/
theorem reorderStep_on_order_cases (p : SimParams) (s : SimState) :
    (reorderStep p s).on_order = p.order_quantity ∨
      (reorderStep p s).on_order = s.on_order := by
  unfold reorderStep
  split
  · exact Or.inl rfl
  · split
    · exact Or.inr rfl
    · exact Or.inr rfl

/-- With a zero order quantity and empty stock, one loop iteration keeps
inventory and the outstanding order at zero, records a stockout, and appends a
zero level. -/
theorem simStep_zero_zero {p : SimParams} {g : ℕ → ℕ} {s s1 : SimState}
    (hq : p.order_quantity = 0) (h : simStep p g s = some s1)
    (hi : s.inventory = 0) (ho : s.on_order = 0) :
    s1.inventory = 0 ∧ s1.on_order = 0 ∧ s1.stockouts = s.stockouts + 1 ∧
      s1.inventory_levels = s.inventory_levels ++ [0] := by
  obtain ⟨d, hr, rfl⟩ := simStep_eq_some h
  have hd1 : 1 ≤ d := le_trans (le_max_left 1 _) (randint_eq_some hr).1
  set t := deliveryStep { s with rngPos := s.rngPos + 1 } with ht
  have hti : t.inventory = 0 ∧ t.on_order = 0 := by
    rw [ht]
    unfold deliveryStep
    split
    · constructor
      · show s.inventory + s.on_order = 0
        rw [hi, ho]
        ring
      · rfl
    · exact ⟨hi, ho⟩
  have hcond : ¬(d : ℚ) ≤ t.inventory := by
    rw [hti.1]
    push_neg
    exact_mod_cast lt_of_lt_of_le zero_lt_one hd1
  rcases fulfillStep_cases d t with ⟨hc, -⟩ | ⟨-, hfe⟩
  · exact absurd hc hcond
  set u := fulfillStep d t with hu
  have hui : u.inventory = 0 := by rw [hfe]
  have huo : u.on_order = 0 := by
    rw [hu, fulfillStep_on_order, hti.2]
  have hus : u.stockouts = s.stockouts + 1 := by
    rw [hfe]
    show t.stockouts + 1 = s.stockouts + 1
    rw [ht, deliveryStep_stockouts]
  refine ⟨?_, ?_, ?_, ?_⟩
  · show (reorderStep p u).inventory = 0
    rw [reorderStep_inventory]
    exact hui
  · show (reorderStep p u).on_order = 0
    rcases reorderStep_on_order_cases p u with hcc | hcc
    · rw [hcc, hq]
    · rw [hcc, huo]
  · show (reorderStep p u).stockouts = s.stockouts + 1
    rw [reorderStep_stockouts, hus]
  · show (reorderStep p u).inventory_levels ++ [(reorderStep p u).inventory] =
      s.inventory_levels ++ [0]
    rw [reorderStep_inventory, reorderStep_levels, hui, hu, fulfillStep_levels,
      ht, deliveryStep_levels]

/-- With a zero order quantity and empty stock, every day of the run is a
stockout and records a zero level. -/
theorem runFrom_zero_zero {p : SimParams} {g : ℕ → ℕ}
    (hq : p.order_quantity = 0) :
    ∀ (n : ℕ) (s s1 : SimState), runFrom p g n s = some s1 →
      s.inventory = 0 → s.on_order = 0 →
      s1.inventory_levels = s.inventory_levels ++ List.replicate n 0 ∧
        s1.stockouts = s.stockouts + n := by
  intro n
  induction n with
  | zero =>
    intro s s1 h hi ho
    rw [runFrom_zero] at h
    cases h
    simp
  | succ n ih =>
    intro s s1 h hi ho
    obtain ⟨u, hu, hrest⟩ := runFrom_succ_eq_some h
    obtain ⟨hui, huo, hus, hul⟩ := simStep_zero_zero hq hu hi ho
    obtain ⟨ihl, ihs⟩ := ih u s1 hrest hui huo
    constructor
    · rw [ihl, hul, List.append_assoc]
      congr 1
    · omega

/-- The delivery check commutes with advancing the random-stream position: it
reads and writes neither the stream nor the position. -/
theorem deliveryStep_rngPos (s : SimState) (k : ℕ) :
    deliveryStep { s with rngPos := k } =
      { deliveryStep s with rngPos := k } := by
  unfold deliveryStep
  split <;> rfl

theorem deliveryStep_rngPos_self (s : SimState) :
    (deliveryStep s).rngPos = s.rngPos := by
  unfold deliveryStep
  split <;> rfl

/-- The implemented transition (demand drawn before the delivery check) equals
the specified transition (delivery check first): the draw depends only on the
stream position, which the delivery check does not touch, and the delivery
check does not consume randomness. -/
theorem simStep_eq_simStepSpec (p : SimParams) (g : ℕ → ℕ) (s : SimState) :
    simStep p g s = simStepSpec p g s := by
  unfold simStep simStepSpec drawDemand
  rw [deliveryStep_rngPos_self]
  cases hr : randint (demandLo p) (demandHi p) (g s.rngPos) with
  | none => rfl
  | some d =>
    simp only
    rw [deliveryStep_rngPos]

theorem runFrom_eq_runFromSpec (p : SimParams) (g : ℕ → ℕ) :
    ∀ (n : ℕ) (s : SimState), runFrom p g n s = runFromSpec p g n s := by
  intro n
  induction n with
  | zero => intro s; rfl
  | succ n ih =>
    intro s
    unfold runFrom runFromSpec
    rw [← simStep_eq_simStepSpec]
    cases simStep p g s with
    | none => rfl
    | some u => exact ih u

/-- Delivery fires exactly when the countdown reads 1: the outstanding order
is added to inventory and cleared. -/
theorem deliveryStep_of_dud_one {s : SimState} (h : s.days_until_delivery = 1) :
    deliveryStep s =
      { s with inventory := s.inventory + s.on_order, on_order := 0 } := by
  unfold deliveryStep
  rw [if_pos h]

/-- Eliminating a successful run: the loop ran to completion and the returned
pair is the final trajectory and stockout count. -/
theorem run_simulation_eq_some {days : ℕ} {init : ℤ} {rop q : ℚ}
    {lt avg std : ℤ} {g : ℕ → ℕ} {levels : List ℚ} {so : ℕ}
    (h : run_simulation days init rop q lt avg std g = some (levels, so)) :
    ∃ s1, runFrom ⟨rop, q, lt, avg, std⟩ g days (initState init) = some s1 ∧
      levels = s1.inventory_levels ∧ so = s1.stockouts := by
  unfold run_simulation at h
  cases hx : runFrom ⟨rop, q, lt, avg, std⟩ g days (initState init) with
  | none => rw [hx] at h; cases h
  | some s1 =>
    rw [hx] at h
    simp only [Option.map_some', Option.some.injEq, Prod.mk.injEq] at h
    exact ⟨s1, rfl, h.1.symm, h.2.symm⟩

/-! ### Claims -/

/-- C1, counterexample: with `lead_time = 3`, constant demand 10
(`avg_daily_demand = 10`, `demand_std = 0`, so the run is the same for every
random source), `initial_stock = 100`, `reorder_point = 95`,
`order_quantity = 50`, the order placed on day 0 (after which
`days_until_delivery = 3`) has NOT arrived by the end of day 2 = day `d + 2`
(`on_order` is still 50, inventory has only fallen to 70); it arrives during
day 3 = day `d + 3` (`on_order` is 0 and inventory jumped to
`70 + 50 - 10 = 110`).  This refutes arrival on day `d + 2`. -/
theorem arrival_not_on_day_plus_two :
    (runFrom ⟨95, 50, 3, 10, 0⟩ (fun _ => 0) 1 (initState 100)).map
        (fun s => (s.on_order, s.days_until_delivery)) = some (50, 3) ∧
      (runFrom ⟨95, 50, 3, 10, 0⟩ (fun _ => 0) 3 (initState 100)).map
        (fun s => (s.on_order, s.inventory)) = some (50, 70) ∧
      (runFrom ⟨95, 50, 3, 10, 0⟩ (fun _ => 0) 4 (initState 100)).map
        (fun s => (s.on_order, s.inventory)) = some (0, 110) := by
  refine ⟨?_, ?_, ?_⟩ <;>
    norm_num [runFrom, simStep, drawDemand, randint, demandLo, demandHi,
      deliveryStep, fulfillStep, reorderStep, recordStep, initState, Option.map]

/-- C1, amended: with `lead_time = 3`, from the state `s` at the end of the
day `d` on which the order was placed (`on_order ≠ 0`,
`days_until_delivery = 3`), the order is still outstanding at the end of day
`d+1` (countdown 2) and of day `d+2` (countdown 1); because the countdown
reads 1 when day `d+3` begins, the delivery branch of day `d+3`'s transition
adds the outstanding order to inventory and clears it: the order arrives
exactly on day `d+3`, one day later than the claim states. -/
theorem arrival_on_day_plus_three (p : SimParams) (g : ℕ → ℕ)
    (s t : SimState) (hq : s.on_order ≠ 0) (hd : s.days_until_delivery = 3)
    (h2 : runFrom p g 2 s = some t) :
    (∀ u, runFrom p g 1 s = some u →
        u.on_order = s.on_order ∧ u.days_until_delivery = 2) ∧
      t.on_order = s.on_order ∧ t.days_until_delivery = 1 ∧
      (deliveryStep t).inventory = t.inventory + s.on_order ∧
      (deliveryStep t).on_order = 0 := by
  obtain ⟨u, hu, hrest⟩ := runFrom_succ_eq_some h2
  obtain ⟨v, hv, h0⟩ := runFrom_succ_eq_some hrest
  rw [runFrom_zero] at h0
  cases h0
  have h1 := simStep_while_outstanding hu hq (by omega) (by omega)
  have h2q : u.on_order ≠ 0 := by rw [h1.1]; exact hq
  have h2d : u.days_until_delivery = 2 := by omega
  have h3 := simStep_while_outstanding hv h2q (by omega) (by omega)
  have hto : t.on_order = s.on_order := by rw [h3.1, h1.1]
  have htd : t.days_until_delivery = 1 := by omega
  refine ⟨?_, hto, htd, ?_, ?_⟩
  · intro u1 hu1
    obtain ⟨u2, hu2, h02⟩ := runFrom_succ_eq_some hu1
    rw [runFrom_zero] at h02
    cases h02
    have h4 := simStep_while_outstanding hu2 hq (by omega) (by omega)
    exact ⟨h4.1, by omega⟩
  · rw [deliveryStep_of_dud_one htd]
    show t.inventory + t.on_order = t.inventory + s.on_order
    rw [hto]
  · rw [deliveryStep_of_dud_one htd]

/-- C1, witness for the amended theorem: the concrete run of the
counterexample scenario, entering at the end of day 0 (the placement day)
with state `⟨90, 50, 3, 0, [90], 1⟩` and reaching
`⟨70, 50, 1, 0, [90, 80, 70], 3⟩` at the end of day 2. -/
theorem arrival_on_day_plus_three_witness :
    (∀ u, runFrom ⟨95, 50, 3, 10, 0⟩ (fun _ => 0) 1 ⟨90, 50, 3, 0, [90], 1⟩ =
          some u →
        u.on_order = (⟨90, 50, 3, 0, [90], 1⟩ : SimState).on_order ∧
          u.days_until_delivery = 2) ∧
      (⟨70, 50, 1, 0, [90, 80, 70], 3⟩ : SimState).on_order =
        (⟨90, 50, 3, 0, [90], 1⟩ : SimState).on_order ∧
      (⟨70, 50, 1, 0, [90, 80, 70], 3⟩ : SimState).days_until_delivery = 1 ∧
      (deliveryStep ⟨70, 50, 1, 0, [90, 80, 70], 3⟩).inventory =
        (⟨70, 50, 1, 0, [90, 80, 70], 3⟩ : SimState).inventory +
          (⟨90, 50, 3, 0, [90], 1⟩ : SimState).on_order ∧
      (deliveryStep ⟨70, 50, 1, 0, [90, 80, 70], 3⟩).on_order = 0 :=
  arrival_on_day_plus_three ⟨95, 50, 3, 10, 0⟩ (fun _ => 0)
    ⟨90, 50, 3, 0, [90], 1⟩ ⟨70, 50, 1, 0, [90, 80, 70], 3⟩
    (by norm_num) rfl
    (by norm_num [runFrom, simStep, drawDemand, randint, demandLo, demandHi,
      deliveryStep, fulfillStep, reorderStep, recordStep, Option.map])

/-- C2: across every run started from the engine's initial state (no order
outstanding), whenever `on_order ≠ 0` at the end of a day, the delivery
countdown is positive, and the reorder decision never places a new order
while one is outstanding (`on_order` is left unchanged whenever it is
nonzero); `lead_time ≥ 1` as the engine's contract assumes. -/
theorem at_most_one_outstanding_order (p : SimParams) (g : ℕ → ℕ)
    (init : ℤ) (hlt : 1 ≤ p.lead_time) :
    (∀ (n : ℕ) (s1 : SimState), runFrom p g n (initState init) = some s1 →
        s1.on_order ≠ 0 → 0 < s1.days_until_delivery) ∧
      (∀ s : SimState, s.on_order ≠ 0 →
        (reorderStep p s).on_order = s.on_order) := by
  constructor
  · intro n s1 h
    refine runFrom_preserves_orderInv hlt n (initState init) s1 ?_ h
    intro h0
    exact absurd rfl h0
  · intro s hq
    exact (reorderStep_of_on_order_ne p hq).1

/-- C2, witness: the invariant instantiated at the concrete scenario of the
other claims (`lead_time = 3`). -/
theorem at_most_one_outstanding_order_witness :
    (∀ (n : ℕ) (s1 : SimState),
        runFrom ⟨95, 50, 3, 10, 0⟩ (fun _ => 0) n (initState 100) = some s1 →
        s1.on_order ≠ 0 → 0 < s1.days_until_delivery) ∧
      (∀ s : SimState, s.on_order ≠ 0 →
        (reorderStep ⟨95, 50, 3, 10, 0⟩ s).on_order = s.on_order) :=
  at_most_one_outstanding_order ⟨95, 50, 3, 10, 0⟩ (fun _ => 0) 100 (by decide)

/-- C3: whenever the engine returns a result, the trajectory has exactly one
entry per simulated day and the stockout count lies between 0 and the number
of days: the loop has no early termination. -/
theorem trajectory_length_and_stockout_bound
    (days : ℕ) (init : ℤ) (rop q : ℚ) (lt avg std : ℤ) (g : ℕ → ℕ)
    (levels : List ℚ) (so : ℕ)
    (h : run_simulation days init rop q lt avg std g = some (levels, so)) :
    levels.length = days ∧ 0 ≤ so ∧ so ≤ days := by
  obtain ⟨s1, hx, hl, hs⟩ := run_simulation_eq_some h
  obtain ⟨hlen, hstk⟩ := runFrom_length_stockouts days (initState init) s1 hx
  subst hl
  subst hs
  refine ⟨?_, Nat.zero_le _, ?_⟩
  · rw [hlen]
    simp [initState]
  · simpa [initState] using hstk

/-- C3, witness: the 5-day run of the counterexample scenario returns 5
levels and 0 stockouts. -/
theorem trajectory_length_and_stockout_bound_witness :
    ([(90 : ℚ), 80, 70, 110, 100]).length = 5 ∧ 0 ≤ 0 ∧ 0 ≤ 5 :=
  trajectory_length_and_stockout_bound 5 100 95 50 3 10 0 (fun _ => 0)
    [90, 80, 70, 110, 100] 0
    (by norm_num [run_simulation, runFrom, simStep, drawDemand, randint,
      demandLo, demandHi, deliveryStep, fulfillStep, reorderStep, recordStep,
      initState])

/-- C4, counterexample: with `avg_daily_demand = 0` and `demand_std = 0` (and
all engine-validated parameters in range: positive horizon, `lead_time = 3`),
the demand range `[max(1, 0), 0]` is empty, `random.randint` raises
`ValueError` on day 0, and the engine returns no result: it is not total for
all values of `avg_daily_demand` and `demand_std`. -/
theorem engine_raises_on_empty_demand_range :
    run_simulation 1 500 393 632 3 0 0 (fun _ => 0) = none ∧
      ¬max 1 ((0 : ℤ) - 2 * 0) ≤ (0 : ℤ) + 2 * 0 := by
  constructor
  · norm_num [run_simulation, runFrom, simStep, drawDemand, randint,
      demandLo, demandHi, initState]
  · decide

/-- C4, amended: the engine runs the whole horizon and returns a result
whenever the demand range is non-empty, i.e. whenever
`max(1, avg_daily_demand - 2*demand_std) ≤ avg_daily_demand +
2*demand_std`; this holds for every horizon, stock, policy and lead time,
but not for all values of `avg_daily_demand` and `demand_std`. -/
theorem engine_total_on_nonempty_demand_range
    (days : ℕ) (init : ℤ) (rop q : ℚ) (lt avg std : ℤ) (g : ℕ → ℕ)
    (h : max 1 (avg - 2 * std) ≤ avg + 2 * std) :
    (run_simulation days init rop q lt avg std g).isSome := by
  unfold run_simulation
  have hle : demandLo ⟨rop, q, lt, avg, std⟩ ≤ demandHi ⟨rop, q, lt, avg, std⟩ := h
  have hs := runFrom_isSome (g := g) hle days (initState init)
  cases hx : runFrom ⟨rop, q, lt, avg, std⟩ g days (initState init) with
  | none => rw [hx] at hs; cases hs
  | some s1 => rfl

/-- C4, witness: the engine returns a result for the concrete valid scenario. -/
theorem engine_total_on_nonempty_demand_range_witness :
    (run_simulation 5 100 95 50 3 10 0 (fun _ => 0)).isSome :=
  engine_total_on_nonempty_demand_range 5 100 95 50 3 10 0 (fun _ => 0)
    (by decide)

/-- C5, counterexample: the EOQ formula can produce a non-integer order
quantity (`calculate_eoq 1225 81 8 = 157.5`), and once such an order is
delivered the recorded inventory levels are no longer integers: a 2-day run
with `order_quantity = 315/2` returns the trajectory `[10, 315/2]`, and
`315/2` equals no integer.  The non-negativity half of the claim does hold
(see the amended theorem). -/
theorem inventory_levels_not_integers :
    calculate_eoq 1225 81 8 = 315 / 2 ∧
      run_simulation 2 20 1000 (315 / 2) 1 10 0 (fun _ => 0) =
        some ([10, 315 / 2], 0) ∧
      ∀ z : ℤ, ((315 : ℚ) / 2) ≠ (z : ℚ) := by
  refine ⟨?_, ?_, ?_⟩
  · unfold calculate_eoq
    rw [show ((2 : ℝ) * 1225 * 81) / 8 = (315 / 2) ^ 2 by norm_num,
      Real.sqrt_sq (by norm_num : (0 : ℝ) ≤ 315 / 2)]
  · norm_num [run_simulation, runFrom, simStep, drawDemand, randint,
      demandLo, demandHi, deliveryStep, fulfillStep, reorderStep, recordStep,
      initState]
  · intro z hz
    have h1 : (315 : ℚ) = 2 * (z : ℚ) := by
      field_simp at hz
      linarith
    have h2 : (315 : ℤ) = 2 * z := by exact_mod_cast h1
    omega

/-- C5, amended: every element of every returned trajectory is non-negative
(the engine zeroes inventory on a stockout and only ever subtracts demand
that fits), but the elements are rationals, not integers, once a non-integer
order quantity is delivered. -/
theorem inventory_levels_nonneg
    (days : ℕ) (init : ℤ) (rop q : ℚ) (lt avg std : ℤ) (g : ℕ → ℕ)
    (levels : List ℚ) (so : ℕ)
    (h : run_simulation days init rop q lt avg std g = some (levels, so)) :
    ∀ x ∈ levels, (0 : ℚ) ≤ x := by
  obtain ⟨s1, hx, hl, -⟩ := run_simulation_eq_some h
  subst hl
  refine runFrom_levels_nonneg days (initState init) s1 hx ?_
  intro x hmem
  simp [initState] at hmem

/-- C5, witness for the amended theorem: the 2-day run delivering the
non-integer order quantity has non-negative levels. -/
theorem inventory_levels_nonneg_witness : (0 : ℚ) ≤ 315 / 2 :=
  inventory_levels_nonneg 2 20 1000 (315 / 2) 1 10 0 (fun _ => 0)
    [10, 315 / 2] 0
    (by norm_num [run_simulation, runFrom, simStep, drawDemand, randint,
      demandLo, demandHi, deliveryStep, fulfillStep, reorderStep, recordStep,
      initState])
    (315 / 2) (by norm_num)

/-- C6: the implemented per-day transition (demand drawn before the delivery
check) is equivalent to the specified transition (delivery check first, then
demand draw, fulfillment, reorder decision, record), for every state and
every random source, and hence the two engines return identical trajectories
and stockout counts on every input.  In particular the position of the
delivery check relative to the demand draw is observationally irrelevant:
the draw reads only the stream position, which the delivery check neither
reads nor writes. -/
theorem step_order_equivalence :
    (∀ (p : SimParams) (g : ℕ → ℕ) (s : SimState),
        simStep p g s = simStepSpec p g s) ∧
      ∀ (days : ℕ) (init : ℤ) (rop q : ℚ) (lt avg std : ℤ) (g : ℕ → ℕ),
        run_simulation days init rop q lt avg std g =
          run_simulation_spec days init rop q lt avg std g := by
  refine ⟨simStep_eq_simStepSpec, ?_⟩
  intro days init rop q lt avg std g
  unfold run_simulation run_simulation_spec
  rw [runFrom_eq_runFromSpec]

/-- C7: every demand value the generator returns lies in
`[max(1, avg_daily_demand - 2*demand_std), avg_daily_demand +
2*demand_std]`; in particular it is at least 1, for every random-source
state. -/
theorem demand_draw_bounds (p : SimParams) (g : ℕ → ℕ) (s s1 : SimState)
    (d : ℤ) (h : drawDemand p g s = some (d, s1)) :
    max 1 (p.avg_daily_demand - 2 * p.demand_std) ≤ d ∧
      d ≤ p.avg_daily_demand + 2 * p.demand_std ∧ 1 ≤ d := by
  unfold drawDemand at h
  cases hr : randint (demandLo p) (demandHi p) (g s.rngPos) with
  | none => rw [hr] at h; cases h
  | some d0 =>
    rw [hr] at h
    simp only [Option.some.injEq, Prod.mk.injEq] at h
    obtain ⟨hd, -⟩ := h
    subst hd
    have hb := randint_eq_some hr
    exact ⟨hb.1, hb.2, le_trans (le_max_left 1 _) hb.1⟩

/-- C7, witness: the draw at the start of the concrete scenario returns
demand 10 within the bounds. -/
theorem demand_draw_bounds_witness :
    max 1 ((⟨95, 50, 3, 10, 0⟩ : SimParams).avg_daily_demand -
        2 * (⟨95, 50, 3, 10, 0⟩ : SimParams).demand_std) ≤ 10 ∧
      (10 : ℤ) ≤ (⟨95, 50, 3, 10, 0⟩ : SimParams).avg_daily_demand +
        2 * (⟨95, 50, 3, 10, 0⟩ : SimParams).demand_std ∧ (1 : ℤ) ≤ 10 :=
  demand_draw_bounds ⟨95, 50, 3, 10, 0⟩ (fun _ => 0) (initState 100)
    { initState 100 with rngPos := (initState 100).rngPos + 1 } 10
    (by norm_num [drawDemand, randint, demandLo, demandHi, initState])

/-- C8: with `initial_stock = 0` and `order_quantity = 0` (and a non-empty
demand range, so the draws succeed), a 5-day run returns without error,
every day is a stockout, and the trajectory is all zeros — for every reorder
point, lead time and random-source state. -/
theorem zero_stock_zero_order_all_stockouts (rop : ℚ) (lt avg std : ℤ)
    (g : ℕ → ℕ) (h : max 1 (avg - 2 * std) ≤ avg + 2 * std) :
    run_simulation 5 0 rop 0 lt avg std g = some (List.replicate 5 0, 5) := by
  unfold run_simulation
  have hle : demandLo ⟨rop, 0, lt, avg, std⟩ ≤ demandHi ⟨rop, 0, lt, avg, std⟩ := h
  have hs := runFrom_isSome (g := g) hle 5 (initState 0)
  cases hx : runFrom ⟨rop, 0, lt, avg, std⟩ g 5 (initState 0) with
  | none => rw [hx] at hs; cases hs
  | some s1 =>
    obtain ⟨hl, hst⟩ := runFrom_zero_zero rfl 5 (initState 0) s1 hx
      (by norm_num [initState]) rfl
    simp only [Option.map_some', Option.some.injEq, Prod.mk.injEq]
    constructor
    · rw [hl]
      simp [initState]
    · rw [hst]
      simp [initState]

/-- C8, witness: the concrete degenerate run. -/
theorem zero_stock_zero_order_all_stockouts_witness :
    run_simulation 5 0 0 0 3 10 0 (fun _ => 0) =
      some (List.replicate 5 0, 5) :=
  zero_stock_zero_order_all_stockouts 0 3 10 0 (fun _ => 0) (by decide)

/-- C10: on any day whose transition increments the stockout count, the
inventory recorded for that day is exactly 0: fulfillment zeroes inventory
before the record step and the reorder decision never modifies inventory. -/
theorem stockout_day_records_zero (p : SimParams) (g : ℕ → ℕ)
    (s s1 : SimState) (h : simStep p g s = some s1)
    (hinc : s.stockouts < s1.stockouts) :
    s1.inventory = 0 ∧ s1.inventory_levels = s.inventory_levels ++ [0] := by
  obtain ⟨hl, -, -, -⟩ := simStep_levels_stockouts h
  obtain ⟨d, hr, hs1⟩ := simStep_eq_some h
  have hinv0 : s1.inventory = 0 := by
    subst hs1
    set t := deliveryStep { s with rngPos := s.rngPos + 1 } with ht
    rcases fulfillStep_cases d t with ⟨hc, hfe⟩ | ⟨hc, hfe⟩
    · exfalso
      have heq : (recordStep (reorderStep p (fulfillStep d t))).stockouts =
          s.stockouts := by
        show (reorderStep p (fulfillStep d t)).stockouts = s.stockouts
        rw [reorderStep_stockouts, hfe]
        show t.stockouts = s.stockouts
        rw [ht, deliveryStep_stockouts]
      omega
    · show (reorderStep p (fulfillStep d t)).inventory = 0
      rw [reorderStep_inventory, hfe]
  exact ⟨hinv0, by rw [hl, hinv0]⟩

/-- C10, witness: day 0 of the degenerate run (`initial_stock = 0`,
`order_quantity = 0`) is a stockout and records level 0. -/
theorem stockout_day_records_zero_witness :
    (⟨0, 0, 3, 1, [0], 1⟩ : SimState).inventory = 0 ∧
      (⟨0, 0, 3, 1, [0], 1⟩ : SimState).inventory_levels =
        (initState 0).inventory_levels ++ [0] :=
  stockout_day_records_zero ⟨0, 0, 3, 10, 0⟩ (fun _ => 0) (initState 0)
    ⟨0, 0, 3, 1, [0], 1⟩
    (by norm_num [simStep, drawDemand, randint, demandLo, demandHi,
      deliveryStep, fulfillStep, reorderStep, recordStep, initState])
    (by norm_num [initState])

/-! ### Properties of the standard normal cdf and quantile -/

open MeasureTheory ProbabilityTheory Filter

open scoped Topology

theorem gaussianPDFReal_integrableOn (s : Set ℝ) :
    IntegrableOn (gaussianPDFReal 0 1) s :=
  (integrable_gaussianPDFReal 0 1).integrableOn

theorem gaussianPDFReal_even (x : ℝ) :
    gaussianPDFReal 0 1 (-x) = gaussianPDFReal 0 1 x := by
  simp [gaussianPDFReal, neg_sq]

theorem stdNormCdf_sub_eq (x y : ℝ) :
    stdNormCdf y - stdNormCdf x = ∫ t in x..y, gaussianPDFReal 0 1 t := by
  unfold stdNormCdf
  exact intervalIntegral.integral_Iic_sub_Iic (gaussianPDFReal_integrableOn _)
    (gaussianPDFReal_integrableOn _)

theorem stdNormCdf_strictMono : StrictMono stdNormCdf := by
  intro x y hxy
  have key : 0 < ∫ t in Set.Ioc x y, gaussianPDFReal 0 1 t := by
    rw [MeasureTheory.setIntegral_pos_iff_support_of_nonneg_ae
      (MeasureTheory.ae_of_all _ fun t => gaussianPDFReal_nonneg 0 1 t)
      (gaussianPDFReal_integrableOn _)]
    have hsub : Set.Ioc x y ⊆ Function.support (gaussianPDFReal 0 1) :=
      fun t _ => ne_of_gt (gaussianPDFReal_pos 0 1 t one_ne_zero)
    rw [Set.inter_eq_self_of_subset_right hsub, Real.volume_Ioc]
    exact ENNReal.ofReal_pos.mpr (by linarith)
  have h2 : stdNormCdf y - stdNormCdf x =
      ∫ t in Set.Ioc x y, gaussianPDFReal 0 1 t := by
    rw [stdNormCdf_sub_eq x y, intervalIntegral.integral_of_le (le_of_lt hxy)]
  linarith

theorem stdNormCdf_continuous : Continuous stdNormCdf := by
  have hrep : stdNormCdf =
      fun x => stdNormCdf 0 + ∫ t in (0 : ℝ)..x, gaussianPDFReal 0 1 t := by
    funext x
    have := stdNormCdf_sub_eq 0 x
    linarith
  rw [hrep]
  exact continuous_const.add (intervalIntegral.continuous_primitive
    (fun a b => (integrable_gaussianPDFReal 0 1).intervalIntegrable) 0)

theorem stdNormCdf_eq_cdf :
    stdNormCdf = ProbabilityTheory.cdf (gaussianReal 0 1) := by
  funext x
  unfold stdNormCdf
  rw [ProbabilityTheory.cdf_eq_toReal,
    ProbabilityTheory.gaussianReal_apply_eq_integral 0 one_ne_zero,
    ENNReal.toReal_ofReal (MeasureTheory.setIntegral_nonneg measurableSet_Iic
      fun t _ => gaussianPDFReal_nonneg 0 1 t)]

theorem stdNormCdf_tendsto_one : Tendsto stdNormCdf atTop (𝓝 1) := by
  rw [stdNormCdf_eq_cdf]
  exact ProbabilityTheory.tendsto_cdf_atTop (gaussianReal 0 1)

theorem stdNormCdf_tendsto_zero : Tendsto stdNormCdf atBot (𝓝 0) := by
  rw [stdNormCdf_eq_cdf]
  exact ProbabilityTheory.tendsto_cdf_atBot (gaussianReal 0 1)

theorem stdNormCdf_zero : stdNormCdf 0 = 1 / 2 := by
  have htot : (∫ t, gaussianPDFReal 0 1 t) = 1 :=
    integral_gaussianPDFReal_eq_one 0 one_ne_zero
  have hsplit : (∫ t in Set.Iic 0, gaussianPDFReal 0 1 t) +
      (∫ t in Set.Ioi 0, gaussianPDFReal 0 1 t) =
      ∫ t, gaussianPDFReal 0 1 t := by
    rw [← Set.compl_Iic]
    exact MeasureTheory.integral_add_compl measurableSet_Iic
      (integrable_gaussianPDFReal 0 1)
  have hsym : (∫ t in Set.Iic 0, gaussianPDFReal 0 1 t) =
      ∫ t in Set.Ioi 0, gaussianPDFReal 0 1 t := by
    rw [show (∫ t in Set.Iic 0, gaussianPDFReal 0 1 t) =
        ∫ t in Set.Iic 0, gaussianPDFReal 0 1 (-t) from
      MeasureTheory.setIntegral_congr_fun measurableSet_Iic
        fun t _ => (gaussianPDFReal_even t).symm]
    have h2 := integral_comp_neg_Iic (0 : ℝ) (gaussianPDFReal 0 1)
    rw [neg_zero] at h2
    exact h2
  unfold stdNormCdf
  linarith

theorem stdNormCdf_surj {p : ℝ} (h0 : 0 < p) (h1 : p < 1) :
    ∃ x, stdNormCdf x = p := by
  have hb : ∀ᶠ x in atTop, p < stdNormCdf x :=
    stdNormCdf_tendsto_one.eventually (eventually_gt_nhds h1)
  have ha : ∀ᶠ x in atBot, stdNormCdf x < p :=
    stdNormCdf_tendsto_zero.eventually (eventually_lt_nhds h0)
  obtain ⟨b, hbb⟩ := hb.exists
  obtain ⟨a, haa⟩ := ha.exists
  have hab : a ≤ b := by
    by_contra hcon
    push_neg at hcon
    have := stdNormCdf_strictMono.monotone (le_of_lt hcon)
    linarith
  have hmem : p ∈ Set.Icc (stdNormCdf a) (stdNormCdf b) :=
    ⟨le_of_lt haa, le_of_lt hbb⟩
  obtain ⟨x, -, hx⟩ :=
    intermediate_value_Icc hab stdNormCdf_continuous.continuousOn hmem
  exact ⟨x, hx⟩

theorem norm_ppf_cdf {p : ℝ} (h0 : 0 < p) (h1 : p < 1) :
    stdNormCdf (norm_ppf p) = p := by
  unfold norm_ppf
  exact Function.invFun_eq (stdNormCdf_surj h0 h1)

theorem norm_ppf_of_cdf (x : ℝ) : norm_ppf (stdNormCdf x) = x := by
  unfold norm_ppf
  exact Function.leftInverse_invFun stdNormCdf_strictMono.injective x

theorem norm_ppf_half : norm_ppf (1 / 2) = 0 := by
  rw [← stdNormCdf_zero]
  exact norm_ppf_of_cdf 0

theorem norm_ppf_mono {p1 p2 : ℝ} (h0 : 0 < p1) (h12 : p1 ≤ p2) (h1 : p2 < 1) :
    norm_ppf p1 ≤ norm_ppf p2 := by
  by_contra hcon
  push_neg at hcon
  have hlt := stdNormCdf_strictMono hcon
  rw [norm_ppf_cdf (lt_of_lt_of_le h0 h12) h1,
    norm_ppf_cdf h0 (lt_of_le_of_lt h12 h1)] at hlt
  linarith

theorem norm_ppf_neg_of_lt_half {p : ℝ} (h0 : 0 < p) (h : p < 1 / 2) :
    norm_ppf p < 0 := by
  have hc : stdNormCdf (norm_ppf p) < stdNormCdf 0 := by
    rw [norm_ppf_cdf h0 (by linarith), stdNormCdf_zero]
    exact h
  exact stdNormCdf_strictMono.lt_iff_lt.mp hc

theorem norm_ppf_nonneg_of_half_le {p : ℝ} (h : 1 / 2 ≤ p) (h1 : p < 1) :
    0 ≤ norm_ppf p := by
  have hc : stdNormCdf 0 ≤ stdNormCdf (norm_ppf p) := by
    rw [norm_ppf_cdf (by linarith) h1, stdNormCdf_zero]
    exact h
  exact stdNormCdf_strictMono.le_iff_le.mp hc

/-- C9, counterexample: at `service_level = 1/4` the z-score is negative, so
`calculate_reorder_point` strictly DECREASES when `demand_std` rises from 0
to 1 (holding `avg_daily = 1` and `lead_time = 1` fixed): the claimed
monotonicity in `demand_std` fails for service levels below one half. -/
theorem rop_not_monotone_in_demand_std :
    calculate_reorder_point 1 1 (1 / 4) 1 <
      calculate_reorder_point 1 1 (1 / 4) 0 := by
  unfold calculate_reorder_point
  have hz : norm_ppf (1 / 4) < 0 :=
    norm_ppf_neg_of_lt_half (by norm_num) (by norm_num)
  rw [Real.sqrt_one]
  simp only [mul_one, mul_zero, one_mul]
  linarith

/-- C9, amended: `calculate_reorder_point` is monotonically non-decreasing in
`service_level` whenever `demand_std ≥ 0`; it is monotonically non-decreasing
in `demand_std` when `service_level ≥ 1/2` (z-score non-negative), and in
`lead_time_days` when additionally `avg_daily` and `demand_std` are
non-negative.  Below `service_level = 1/2` the z-score is negative and
monotonicity in `demand_std` (and `lead_time_days`) fails, as the
counterexample shows. -/
theorem rop_monotonicity_amended :
    (∀ avg L std p1 p2 : ℝ, 0 ≤ std → 0 < p1 → p1 ≤ p2 → p2 < 1 →
        calculate_reorder_point avg L p1 std ≤
          calculate_reorder_point avg L p2 std) ∧
      (∀ avg L p std1 std2 : ℝ, 1 / 2 ≤ p → p < 1 → std1 ≤ std2 →
        calculate_reorder_point avg L p std1 ≤
          calculate_reorder_point avg L p std2) ∧
      ∀ avg p std L1 L2 : ℝ, 1 / 2 ≤ p → p < 1 → 0 ≤ avg → 0 ≤ std →
        L1 ≤ L2 →
        calculate_reorder_point avg L1 p std ≤
          calculate_reorder_point avg L2 p std := by
  refine ⟨?_, ?_, ?_⟩
  · intro avg L std p1 p2 hstd h0 h12 h1
    unfold calculate_reorder_point
    have hm := norm_ppf_mono h0 h12 h1
    have hmul : norm_ppf p1 * std * Real.sqrt L ≤
        norm_ppf p2 * std * Real.sqrt L :=
      mul_le_mul_of_nonneg_right (mul_le_mul_of_nonneg_right hm hstd)
        (Real.sqrt_nonneg L)
    linarith
  · intro avg L p std1 std2 hp h1 hstd
    unfold calculate_reorder_point
    have hz := norm_ppf_nonneg_of_half_le hp h1
    have hmul : norm_ppf p * std1 * Real.sqrt L ≤
        norm_ppf p * std2 * Real.sqrt L :=
      mul_le_mul_of_nonneg_right (mul_le_mul_of_nonneg_left hstd hz)
        (Real.sqrt_nonneg L)
    linarith
  · intro avg p std L1 L2 hp h1 havg hstd hL
    unfold calculate_reorder_point
    have hz := norm_ppf_nonneg_of_half_le hp h1
    have h2 : avg * L1 ≤ avg * L2 := mul_le_mul_of_nonneg_left hL havg
    have h3 : norm_ppf p * std * Real.sqrt L1 ≤
        norm_ppf p * std * Real.sqrt L2 :=
      mul_le_mul_of_nonneg_left (Real.sqrt_le_sqrt hL) (mul_nonneg hz hstd)
    linarith

/-- C9, witness for the amended theorem: monotonicity in the service level at
concrete inputs `1/2 ≤ 3/4`. -/
theorem rop_monotonicity_amended_witness :
    calculate_reorder_point 1 1 (1 / 2) 1 ≤
      calculate_reorder_point 1 1 (3 / 4) 1 :=
  rop_monotonicity_amended.1 1 1 1 (1 / 2) (3 / 4) (by norm_num) (by norm_num)
    (by norm_num) (by norm_num)

end InventorySim
